import Mathlib

/-!
Shallow embedding of the `lazymut` crate (`src/lib.rs`): a mutable,
lazily-initialized cell `LazyMut<T, F>` backed by a three-state enum
`State<T, F>` with variants `Uninit(F)`, `Inited(T)` and `Poisoned`.

Rust panics are modelled by `Except Panic`; a user initializer is a value
`f : F` together with a call interpretation `call : F → Option T`, where
`call f = none` models an initializer that panics when invoked and
`call f = some v` models one that returns `v`.  Mutable references out of
the cell are modelled by the value readable through them.
-/

namespace LazyMutSpec

/-- Panic outcomes of the cell's operations.  `PoisonedReuse` is the panic
raised by `panic_poisoned` (lib.rs lines 164-168); `InitFail` stands for a
panic propagating out of the user initializer; `UnreachableCode` models the
branch guarded by the Rust code's internal unreachable assertion and
`UnwrapNone` the forced unwrap inside `State::get_or_init`. -/
inductive Panic where
  | PoisonedReuse : Panic
  | InitFail : Panic
  | UnreachableCode : Panic
  | UnwrapNone : Panic

/-- The `State<T, F>` enum of lib.rs (lines 114-119): `Uninit` owns the
not-yet-invoked initializer, `Inited` owns the constructed value,
`Poisoned` owns nothing. -/
inductive State (T F : Type) where
  | Uninit : F → State T F
  | Inited : T → State T F
  | Poisoned : State T F

/-- `State::try_get` (lib.rs lines 147-153): `Some` of the value when
`Inited`, `None` otherwise. -/
def State.try_get {T F : Type} : State T F → Option T
  | State.Inited v => some v
  | State.Uninit _ => none
  | State.Poisoned => none

/-- `State::try_get_mut` (lib.rs lines 155-161): the mutable analogue of
`try_get`; the returned mutable reference is modelled by the value it
points to. -/
def State.try_get_mut {T F : Type} : State T F → Option T
  | State.Inited v => some v
  | State.Uninit _ => none
  | State.Poisoned => none

/-- `core::mem::replace(self, new)`: the first component is the updated
place (`new`), the second is the moved-out old value. -/
def mem_replace {T F : Type} (self new : State T F) : State T F × State T F :=
  (new, self)

/-- Outcome of one `get`/`get_or_init` call: the returned reference's value
(or the panic), the state the cell is left in once the call returns or
unwinds, and how many times the user initializer was invoked during the
call. -/
structure GetOut (T F : Type) where
  res : Except Panic T
  state : State T F
  calls : Nat

/-- `State::get_or_init` (lib.rs lines 129-144), branch for branch:
`Poisoned` calls `panic_poisoned`; `Inited` returns the existing value;
`Uninit` replaces the state with `Poisoned`, lets-else-destructures the
moved-out old state (any other variant would hit the unreachable
assertion), invokes the initializer (if it panics the cell stays
`Poisoned`), stores `Inited` of the produced value and returns
`try_get_mut` forcibly unwrapped. -/
def State.get_or_init {T F : Type} (call : F → Option T) : State T F → GetOut T F
  | State.Poisoned => ⟨Except.error Panic.PoisonedReuse, State.Poisoned, 0⟩
  | State.Inited val => ⟨Except.ok val, State.Inited val, 0⟩
  | State.Uninit f0 =>
      let r := mem_replace (State.Uninit f0) State.Poisoned
      match r.2 with
      | State.Uninit f =>
          match call f with
          | none => ⟨Except.error Panic.InitFail, r.1, 1⟩
          | some v =>
              let s2 : State T F := State.Inited v
              match s2.try_get_mut with
              | some w => ⟨Except.ok w, s2, 1⟩
              | none => ⟨Except.error Panic.UnwrapNone, s2, 1⟩
      | State.Inited _ => ⟨Except.error Panic.UnreachableCode, r.1, 0⟩
      | State.Poisoned => ⟨Except.error Panic.UnreachableCode, r.1, 0⟩

/-- The public `LazyMut<T, F>` wrapper (lib.rs lines 8-10): a struct with a
single `state` field. -/
structure LazyMut (T F : Type) where
  state : State T F

/-- `LazyMut::new` (lib.rs lines 25-27): stores the initializer without
invoking it. -/
def LazyMut.new {T F : Type} (f : F) : LazyMut T F :=
  ⟨State.Uninit f⟩

/-- `LazyMut::try_get` (lib.rs lines 41-43): delegates to the state. -/
def LazyMut.try_get {T F : Type} (c : LazyMut T F) : Option T :=
  c.state.try_get

/-- `LazyMut::try_get_mut` (lib.rs lines 57-59): delegates to the state. -/
def LazyMut.try_get_mut {T F : Type} (c : LazyMut T F) : Option T :=
  c.state.try_get_mut

/-- `LazyMut::get` (lib.rs lines 111-113): delegates to
`State::get_or_init`. -/
def LazyMut.get {T F : Type} (call : F → Option T) (c : LazyMut T F) : GetOut T F :=
  c.state.get_or_init call

/-- `LazyMut::into_inner` (lib.rs lines 84-90): consumes the cell;
`Uninit` yields `none` (dropping the initializer), `Poisoned` panics via
`panic_poisoned`, `Inited` yields the owned value. -/
def LazyMut.into_inner {T F : Type} : LazyMut T F → Except Panic (Option T)
  | ⟨State.Uninit _⟩ => Except.ok none
  | ⟨State.Poisoned⟩ => Except.error Panic.PoisonedReuse
  | ⟨State.Inited val⟩ => Except.ok (some val)

/-- `impl Default for State` (lib.rs lines 123-127): the default state is
`Inited(Default::default())`; the value type's own default is the
parameter `d`. -/
def State.defaultState {T F : Type} (d : T) : State T F :=
  State.Inited d

/-- The derived `Default` for `LazyMut` (lib.rs line 7): field-wise, so the
default cell wraps the default state. -/
def LazyMut.defaultCell {T F : Type} (d : T) : LazyMut T F :=
  ⟨State.defaultState d⟩

/-- `impl Debug for LazyMut` (lib.rs lines 12-21): a debug tuple that shows
the value (rendered by the value type's own `Debug`, the parameter
`render`) when `try_get` is `Some`, and the placeholder when `None`. -/
def LazyMut.debug_fmt {T F : Type} (render : T → String) (c : LazyMut T F) : String :=
  match c.state.try_get with
  | some val => "LazyMut(" ++ render val ++ ")"
  | none => "LazyMut(<uninit>)"

/-- Whether the state is the `Uninit` variant. -/
def State.isUninit {T F : Type} : State T F → Bool
  | State.Uninit _ => true
  | State.Inited _ => false
  | State.Poisoned => false

/-- The non-consuming operations on a cell, for reasoning about a cell's
whole lifetime as a sequence of calls. -/
inductive Op where
  | opGet : Op
  | opTryGet : Op
  | opTryGetMut : Op

/-- One operation on the state: `get` runs `get_or_init` (recording its
initializer-invocation count); `try_get` and `try_get_mut` take the cell by
(mutable) reference, read through `State.try_get`/`State.try_get_mut` and
leave the state unchanged, invoking nothing. -/
def step {T F : Type} (call : F → Option T) (s : State T F) : Op → State T F × Nat
  | Op.opGet => ((s.get_or_init call).state, (s.get_or_init call).calls)
  | Op.opTryGet => (s, 0)
  | Op.opTryGetMut => (s, 0)

/-- Run a sequence of operations, accumulating the total number of
initializer invocations. -/
def run {T F : Type} (call : F → Option T) : State T F → List Op → State T F × Nat
  | s, [] => (s, 0)
  | s, o :: os =>
      let p := step call s o
      let q := run call p.1 os
      (q.1, p.2 + q.2)

/-- A step from a non-`Uninit` state invokes no initializer and stays
non-`Uninit`. -/
theorem step_of_not_uninit {T F : Type} (call : F → Option T) (s : State T F)
    (o : Op) (h : s.isUninit = false) :
    (step call s o).2 = 0 ∧ ((step call s o).1).isUninit = false := by
  cases s with
  | Uninit f => simp [State.isUninit] at h
  | Inited v => cases o <;> simp [step, State.get_or_init, State.isUninit]
  | Poisoned => cases o <;> simp [step, State.get_or_init, State.isUninit]

/-- A run from a non-`Uninit` state invokes no initializer at all and ends
non-`Uninit`. -/
theorem run_of_not_uninit {T F : Type} (call : F → Option T) (s : State T F)
    (ops : List Op) (h : s.isUninit = false) :
    (run call s ops).2 = 0 ∧ ((run call s ops).1).isUninit = false := by
  induction ops generalizing s with
  | nil => exact ⟨rfl, h⟩
  | cons o os ih =>
      obtain ⟨h1, h2⟩ := step_of_not_uninit call s o h
      obtain ⟨h3, h4⟩ := ih (step call s o).1 h2
      exact ⟨by simp [run, h1, h3], by simpa [run] using h4⟩

/-- Over any run, the initializer is invoked at most once in total. -/
theorem run_calls_le_one {T F : Type} (call : F → Option T) (s : State T F)
    (ops : List Op) : (run call s ops).2 ≤ 1 := by
  induction ops generalizing s with
  | nil => simp [run]
  | cons o os ih =>
      cases hs : s.isUninit with
      | false =>
          obtain ⟨h1, _⟩ := run_of_not_uninit call s (o :: os) hs
          omega
      | true =>
          cases s with
          | Inited v => simp [State.isUninit] at hs
          | Poisoned => simp [State.isUninit] at hs
          | Uninit f =>
              cases o with
              | opTryGet => simpa [run, step] using ih (State.Uninit f)
              | opTryGetMut => simpa [run, step] using ih (State.Uninit f)
              | opGet =>
                  cases hc : call f with
                  | none =>
                      have h0 : ((step call (State.Uninit f) Op.opGet).1).isUninit
                          = false := by
                        simp [step, State.get_or_init, mem_replace, hc, State.isUninit]
                      obtain ⟨h1, _⟩ :=
                        run_of_not_uninit call (step call (State.Uninit f) Op.opGet).1 os h0
                      have h2 : (step call (State.Uninit f) Op.opGet).2 = 1 := by
                        simp [step, State.get_or_init, mem_replace, hc]
                      simp [run, h1, h2]
                  | some v =>
                      have h0 : ((step call (State.Uninit f) Op.opGet).1).isUninit
                          = false := by
                        simp [step, State.get_or_init, mem_replace, hc,
                          State.try_get_mut, State.isUninit]
                      obtain ⟨h1, _⟩ :=
                        run_of_not_uninit call (step call (State.Uninit f) Op.opGet).1 os h0
                      have h2 : (step call (State.Uninit f) Op.opGet).2 = 1 := by
                        simp [step, State.get_or_init, mem_replace, hc, State.try_get_mut]
                      simp [run, h1, h2]

/-- C1: `get` behaves by current state: on `Inited` it returns the existing
value without touching the initializer; on `Uninit` it removes the
initializer, invokes it exactly once, stores the result as `Inited` and
returns the fresh value (and if the initializer panics the cell is left at
the `Poisoned` placeholder); on `Poisoned` it panics. -/
theorem C1_get_by_state (T F : Type) (call : F → Option T) :
    (∀ v : T, LazyMut.get call (⟨State.Inited v⟩ : LazyMut T F)
        = ⟨Except.ok v, State.Inited v, 0⟩)
  ∧ (∀ (f : F) (v : T), call f = some v →
        LazyMut.get call (LazyMut.new f) = ⟨Except.ok v, State.Inited v, 1⟩)
  ∧ (∀ f : F, call f = none →
        LazyMut.get call (LazyMut.new f)
          = ⟨Except.error Panic.InitFail, State.Poisoned, 1⟩)
  ∧ LazyMut.get call (⟨State.Poisoned⟩ : LazyMut T F)
      = ⟨Except.error Panic.PoisonedReuse, State.Poisoned, 0⟩ := by
  refine ⟨fun v => rfl, fun f v h => ?_, fun f h => ?_, rfl⟩
  · simp [LazyMut.get, LazyMut.new, State.get_or_init, mem_replace, h,
      State.try_get_mut]
  · simp [LazyMut.get, LazyMut.new, State.get_or_init, mem_replace, h]

/-- C1 witness at concrete inputs. -/
theorem C1_get_by_state_witness :
    ((fun n : Nat => some (n + 1)) 41 = some 42
      ∧ LazyMut.get (fun n : Nat => some (n + 1)) (LazyMut.new 41)
          = ⟨Except.ok 42, State.Inited 42, 1⟩)
  ∧ ((fun _ : Nat => (none : Option Nat)) 7 = none
      ∧ LazyMut.get (fun _ : Nat => (none : Option Nat)) (LazyMut.new 7)
          = ⟨Except.error Panic.InitFail, State.Poisoned, 1⟩) :=
  ⟨⟨rfl, (C1_get_by_state Nat Nat (fun n => some (n + 1))).2.1 41 42 rfl⟩,
   ⟨rfl, (C1_get_by_state Nat Nat (fun _ => none)).2.2.1 7 rfl⟩⟩

/-- C2: during the first `get` on an `Uninit` cell the state is replaced by
`Poisoned` before the initializer runs; if the initializer panics during
that call the cell is left `Poisoned`, and every subsequent `get` or
`into_inner` raises the `PoisonedReuse` panic, without re-invoking the
initializer and without returning any value. -/
theorem C2_poison_on_init_abort (T F : Type) (call : F → Option T) (f : F)
    (h : call f = none) :
    (LazyMut.get call (LazyMut.new f)).state = State.Poisoned
  ∧ (LazyMut.get call (LazyMut.new f)).res = Except.error Panic.InitFail
  ∧ LazyMut.get call (⟨(LazyMut.get call (LazyMut.new f)).state⟩ : LazyMut T F)
      = ⟨Except.error Panic.PoisonedReuse, State.Poisoned, 0⟩
  ∧ LazyMut.into_inner (⟨(LazyMut.get call (LazyMut.new f)).state⟩ : LazyMut T F)
      = Except.error Panic.PoisonedReuse := by
  have hs : LazyMut.get call (LazyMut.new f)
      = ⟨Except.error Panic.InitFail, State.Poisoned, 1⟩ := by
    simp [LazyMut.get, LazyMut.new, State.get_or_init, mem_replace, h]
  refine ⟨by simp [hs], by simp [hs], ?_, ?_⟩
  · rw [hs]
    rfl
  · rw [hs]
    rfl

/-- C2 witness at a concrete panicking initializer. -/
theorem C2_poison_on_init_abort_witness :
    (fun _ : Nat => (none : Option Nat)) 5 = none
  ∧ ((LazyMut.get (fun _ : Nat => (none : Option Nat)) (LazyMut.new 5)).state
        = State.Poisoned
    ∧ (LazyMut.get (fun _ : Nat => (none : Option Nat)) (LazyMut.new 5)).res
        = Except.error Panic.InitFail
    ∧ LazyMut.get (fun _ : Nat => (none : Option Nat))
        (⟨(LazyMut.get (fun _ : Nat => (none : Option Nat)) (LazyMut.new 5)).state⟩
          : LazyMut Nat Nat)
        = ⟨Except.error Panic.PoisonedReuse, State.Poisoned, 0⟩
    ∧ LazyMut.into_inner
        (⟨(LazyMut.get (fun _ : Nat => (none : Option Nat)) (LazyMut.new 5)).state⟩
          : LazyMut Nat Nat)
        = Except.error Panic.PoisonedReuse) :=
  ⟨rfl, C2_poison_on_init_abort Nat Nat (fun _ => none) 5 rfl⟩

/-- C3: for a cell `new f` the first `get` invokes the initializer exactly
once and yields its value; a second `get` on the resulting cell invokes it
zero further times and returns the same value; over any sequence of
operations the initializer runs at most once in total, and a step invokes
it only when leaving the `Uninit` state. -/
theorem C3_init_once (T F : Type) (call : F → Option T) (f : F) (v : T)
    (h : call f = some v) :
    LazyMut.get call (LazyMut.new f) = ⟨Except.ok v, State.Inited v, 1⟩
  ∧ LazyMut.get call (⟨(LazyMut.get call (LazyMut.new f)).state⟩ : LazyMut T F)
      = ⟨Except.ok v, State.Inited v, 0⟩
  ∧ (∀ (s : State T F) (ops : List Op), (run call s ops).2 ≤ 1)
  ∧ (∀ (s : State T F) (o : Op), 0 < (step call s o).2 → s.isUninit = true) := by
  have hs : LazyMut.get call (LazyMut.new f) = ⟨Except.ok v, State.Inited v, 1⟩ := by
    simp [LazyMut.get, LazyMut.new, State.get_or_init, mem_replace, h,
      State.try_get_mut]
  refine ⟨hs, by rw [hs]; rfl, run_calls_le_one call, fun s o hpos => ?_⟩
  cases hu : s.isUninit with
  | true => rfl
  | false =>
      obtain ⟨h0, _⟩ := step_of_not_uninit call s o hu
      omega

/-- C3 witness at a concrete initializer. -/
theorem C3_init_once_witness :
    (fun n : Nat => some (n * 2)) 21 = some 42
  ∧ (LazyMut.get (fun n : Nat => some (n * 2)) (LazyMut.new 21)
        = ⟨Except.ok 42, State.Inited 42, 1⟩
    ∧ LazyMut.get (fun n : Nat => some (n * 2))
        (⟨(LazyMut.get (fun n : Nat => some (n * 2)) (LazyMut.new 21)).state⟩
          : LazyMut Nat Nat)
        = ⟨Except.ok 42, State.Inited 42, 0⟩
    ∧ (∀ (s : State Nat Nat) (ops : List Op),
        (run (fun n => some (n * 2)) s ops).2 ≤ 1)
    ∧ (∀ (s : State Nat Nat) (o : Op),
        0 < (step (fun n => some (n * 2)) s o).2 → s.isUninit = true)) :=
  ⟨rfl, C3_init_once Nat Nat (fun n => some (n * 2)) 21 42 rfl⟩

/-- C4: `into_inner` returns the owned value on an `Inited` cell, returns
`none` on an `Uninit` cell — for every stored initializer, so the
initializer is dropped unused — and panics with `PoisonedReuse` on a
`Poisoned` cell; it never triggers initialization. -/
theorem C4_into_inner (T F : Type) :
    (∀ v : T, LazyMut.into_inner (⟨State.Inited v⟩ : LazyMut T F)
        = Except.ok (some v))
  ∧ (∀ f : F, LazyMut.into_inner (LazyMut.new (T := T) f) = Except.ok none)
  ∧ LazyMut.into_inner (⟨State.Poisoned⟩ : LazyMut T F)
      = Except.error Panic.PoisonedReuse :=
  ⟨fun _ => rfl, fun _ => rfl, rfl⟩

/-- C5: `Poisoned` is terminal and irreversible: every step from `Poisoned`
stays at `Poisoned` (invoking nothing), every run from `Poisoned` ends at
`Poisoned`, and `into_inner` on a `Poisoned` cell panics instead of
yielding anything; moreover every step from `Inited v` stays at `Inited v`
and every step from `Uninit f` lands in `Uninit f`, some `Inited` state or
`Poisoned`, so the only reachable sequence is Uninitialized to Initialized
or Poisoned. -/
theorem C5_poisoned_terminal (T F : Type) (call : F → Option T) :
    (∀ o : Op, step call (State.Poisoned : State T F) o = (State.Poisoned, 0))
  ∧ (∀ ops : List Op,
      (run call (State.Poisoned : State T F) ops).1 = State.Poisoned)
  ∧ LazyMut.into_inner (⟨State.Poisoned⟩ : LazyMut T F)
      = Except.error Panic.PoisonedReuse
  ∧ (∀ (v : T) (o : Op), (step call (State.Inited v) o).1 = State.Inited v)
  ∧ (∀ (f : F) (o : Op), (step call (State.Uninit f) o).1 = State.Uninit f
      ∨ (∃ v : T, (step call (State.Uninit f) o).1 = State.Inited v)
      ∨ (step call (State.Uninit f) o).1 = State.Poisoned) := by
  have hp : ∀ o : Op, step call (State.Poisoned : State T F) o
      = (State.Poisoned, 0) := by
    intro o
    cases o <;> simp [step, State.get_or_init]
  refine ⟨hp, fun ops => ?_, rfl, fun v o => ?_, fun f o => ?_⟩
  · induction ops with
    | nil => rfl
    | cons o os ih => simp [run, hp o, ih]
  · cases o <;> simp [step, State.get_or_init]
  · cases o with
    | opTryGet => exact Or.inl rfl
    | opTryGetMut => exact Or.inl rfl
    | opGet =>
        cases hc : call f with
        | none =>
            exact Or.inr (Or.inr (by
              simp [step, State.get_or_init, mem_replace, hc]))
        | some v =>
            exact Or.inr (Or.inl ⟨v, by
              simp [step, State.get_or_init, mem_replace, hc, State.try_get_mut]⟩)

/-- C6: `try_get` returns `some` of the value exactly when the state is
`Inited` and `none` otherwise; `try_get_mut` is its exact mutable
analogue; and as steps on the cell both leave the state unchanged and
invoke no initializer. -/
theorem C6_try_get_spec (T F : Type) (call : F → Option T) :
    (∀ (s : State T F) (v : T), s.try_get = some v ↔ s = State.Inited v)
  ∧ (∀ s : State T F, s.try_get_mut = s.try_get)
  ∧ (∀ f : F, (LazyMut.new (T := T) f).try_get = none
      ∧ (LazyMut.new (T := T) f).try_get_mut = none)
  ∧ ((⟨State.Poisoned⟩ : LazyMut T F).try_get = none
      ∧ (⟨State.Poisoned⟩ : LazyMut T F).try_get_mut = none)
  ∧ (∀ s : State T F, step call s Op.opTryGet = (s, 0)
      ∧ step call s Op.opTryGetMut = (s, 0)) := by
  refine ⟨fun s v => ?_, fun s => ?_, fun f => ⟨rfl, rfl⟩, ⟨rfl, rfl⟩,
    fun s => ⟨rfl, rfl⟩⟩
  · cases s <;> simp [State.try_get]
  · cases s <;> simp [State.try_get, State.try_get_mut]

/-- C7: the default-constructed cell is already `Inited` with the value
type's default value, bypassing `Uninit` entirely, so `try_get` on it
immediately returns the default value. -/
theorem C7_default_inited (T F : Type) (d : T) :
    (LazyMut.defaultCell (F := F) d).state = State.Inited d
  ∧ (LazyMut.defaultCell (F := F) d).try_get = some d
  ∧ ((LazyMut.defaultCell (F := F) d).state).isUninit = false :=
  ⟨rfl, rfl, rfl⟩

/-- C8: the debug rendering shows the contained value when `Inited` and the
placeholder token otherwise; `Uninit` renders identically for every stored
initializer (so inspection cannot trigger initialization) and `Poisoned`
renders exactly as `Uninit` does, without panicking. -/
theorem C8_debug_fmt (T F : Type) (render : T → String) :
    (∀ v : T, LazyMut.debug_fmt render (⟨State.Inited v⟩ : LazyMut T F)
        = "LazyMut(" ++ render v ++ ")")
  ∧ (∀ f : F, LazyMut.debug_fmt render (LazyMut.new (T := T) f)
        = "LazyMut(<uninit>)")
  ∧ LazyMut.debug_fmt render (⟨State.Poisoned⟩ : LazyMut T F)
      = "LazyMut(<uninit>)" :=
  ⟨fun _ => rfl, fun _ => rfl, rfl⟩

/-- C9: the two internal failure points of `get_or_init` on the `Uninit`
path are unreachable: for every state the result is never the
`UnreachableCode` panic of the moved-out-state destructuring nor the
`UnwrapNone` panic of the forced unwrap, and when the initializer returns
normally the call succeeds outright. -/
theorem C9_internal_panics_unreachable (T F : Type) (call : F → Option T)
    (f : F) (v : T) (h : call f = some v) :
    (State.Uninit f).get_or_init call = ⟨Except.ok v, State.Inited v, 1⟩
  ∧ (∀ s : State T F,
      (s.get_or_init call).res ≠ Except.error Panic.UnreachableCode)
  ∧ (∀ s : State T F,
      (s.get_or_init call).res ≠ Except.error Panic.UnwrapNone) := by
  refine ⟨by simp [State.get_or_init, mem_replace, h, State.try_get_mut],
    fun s => ?_, fun s => ?_⟩
  · cases s with
    | Uninit g =>
        cases hc : call g <;>
          simp [State.get_or_init, mem_replace, hc, State.try_get_mut]
    | Inited w => simp [State.get_or_init]
    | Poisoned => simp [State.get_or_init]
  · cases s with
    | Uninit g =>
        cases hc : call g <;>
          simp [State.get_or_init, mem_replace, hc, State.try_get_mut]
    | Inited w => simp [State.get_or_init]
    | Poisoned => simp [State.get_or_init]

/-- C9 witness at a concrete initializer. -/
theorem C9_internal_panics_unreachable_witness :
    (fun n : Nat => some (n + 3)) 0 = some 3
  ∧ ((State.Uninit 0).get_or_init (fun n : Nat => some (n + 3))
        = ⟨Except.ok 3, State.Inited 3, 1⟩
    ∧ (∀ s : State Nat Nat,
        (s.get_or_init (fun n => some (n + 3))).res
          ≠ Except.error Panic.UnreachableCode)
    ∧ (∀ s : State Nat Nat,
        (s.get_or_init (fun n => some (n + 3))).res
          ≠ Except.error Panic.UnwrapNone)) :=
  ⟨rfl, C9_internal_panics_unreachable Nat Nat (fun n => some (n + 3)) 0 3 rfl⟩

/-- C10: `get` on a `Poisoned` cell panics with `PoisonedReuse` without
invoking any initializer and without modifying the state: the cell is left
exactly `Poisoned`. -/
theorem C10_poisoned_get_atomic (T F : Type) (call : F → Option T) :
    LazyMut.get call (⟨State.Poisoned⟩ : LazyMut T F)
      = ⟨Except.error Panic.PoisonedReuse, State.Poisoned, 0⟩ :=
  rfl

end LazyMutSpec
